import Mathlib

/-!
Verification of the iPOPO remote-services dispatcher
(`pelix/remote/dispatcher.py`) and the service-event bean
(`pelix/internals/events.py`).

Python dictionaries are modelled as association lists over `String` keys
(`dictGet`, `dictSet`, `dictRemove`, `dictSetdefault` mirror `d[k]`,
`d[k] = v`, `del d[k]` / `d.pop(k)`, `d.setdefault(k, v)`).  Python
exceptions are the inductive `PyExc`; a fallible operation returns
`Except PyExc`.  Each modelled method also returns the (functionally
updated) object state and the trace of listener callbacks it performed.
-/

set_option autoImplicit false

/-- Lookup in a Python dict: first entry with the given key. -/
def dictGet {α : Type} : List (String × α) → String → Option α
  | [], _ => Option.none
  | p :: rest, k => if p.1 = k then some p.2 else dictGet rest k

/-- Assignment `d[k] = v` in a Python dict: replace the entry for `k`,
or append a fresh one. -/
def dictSet {α : Type} : List (String × α) → String → α → List (String × α)
  | [], k, v => [(k, v)]
  | p :: rest, k, v => if p.1 = k then (k, v) :: rest else p :: dictSet rest k v

/-- Deletion `del d[k]` / `d.pop(k)` in a Python dict (a dict holds at most
one entry per key). -/
def dictRemove {α : Type} : List (String × α) → String → List (String × α)
  | [], _ => []
  | p :: rest, k => if p.1 = k then dictRemove rest k else p :: dictRemove rest k

/-- Python `d.setdefault(k, v)`: insert `(k, v)` only when `k` is absent. -/
def dictSetdefault {α : Type} (l : List (String × α)) (k : String) (v : α) :
    List (String × α) :=
  match dictGet l k with
  | some _ => l
  | Option.none => l ++ [(k, v)]

/-- Values exchanged with a dispatched service method. -/
inductive Val where
  | int (n : Int)
  | str (s : String)
deriving DecidableEq

/-- Python exceptions relevant to the dispatcher: `KeyError`, `ValueError`,
`TypeError`, `pelix.remote.RemoteServiceError`, each carrying its message. -/
inductive PyExc where
  | keyError (msg : String)
  | valueError (msg : String)
  | typeError (msg : String)
  | remoteServiceError (msg : String)
deriving DecidableEq

/-- Property mappings (`old_properties`, endpoint properties). -/
abbrev Props := List (String × Val)

/-- An attribute of a Python service object: either a callable or a plain
(non-callable) value. -/
inductive Member where
  | callable (f : List Val → Except PyExc Val)
  | attr (v : Val)

/-- Invoking an attribute with positional arguments: a callable runs,
a non-callable raises `TypeError`. -/
def callMember : Member → List Val → Except PyExc Val
  | Member.callable f, params => f params
  | Member.attr _, _ => Except.error (PyExc.typeError "object is not callable")

/-- An exported endpoint, as the dispatcher sees it.  `objId` models Python
object identity (used by `!=` on endpoints); `inst` is the `instance`
attribute, an object resolved by `getattr` one member name at a time.
(`instance` is a Lean keyword, hence the shortened field name.) -/
structure Endpoint where
  objId : Nat
  uid : String
  kind : String
  name : String
  inst : String → Option Member

/-- A lifecycle notification delivered to a listener. -/
inductive Notif where
  | added (e : Endpoint)
  | updated (e : Endpoint) (old_properties : Props)
  | removed (e : Endpoint)

/-- An injected endpoint listener.  The dispatcher ignores callback return
values, so only whether a callback raises (and which exception) is
modelled; `id` identifies the listener in the recorded call trace. -/
structure Listener where
  id : Nat
  excOf : Notif → Option PyExc

/-- The listener loop of `add_endpoint` / `update_endpoint` /
`remove_endpoint`: call each listener in order; the loop body has no
`try`/`except`, so the first exception aborts the loop and escapes.
Returns the performed calls and the escaping exception, if any. -/
def notifyLoop : List Listener → Notif → List (Nat × Notif) × Option PyExc
  | [], _ => ([], Option.none)
  | l :: rest, n =>
    match l.excOf n with
    | some ex => ([(l.id, n)], some ex)
    | Option.none =>
      let r := notifyLoop rest n
      ((l.id, n) :: r.1, r.2)

/-- Turn an escaped exception into the method's result. -/
def excResult {β : Type} : Option PyExc → β → Except PyExc β
  | some ex, _ => Except.error ex
  | Option.none, b => Except.ok b

/-- The mutable state of a `Dispatcher` component: the injected listeners,
the `__kind_endpoints` index (kind to (name to endpoint)) and the
`__endpoints` index (uid to endpoint). -/
structure DState where
  listeners : List Listener
  kindEndpoints : List (String × List (String × Endpoint))
  endpoints : List (String × Endpoint)

/-- A freshly constructed dispatcher: no listeners, both indexes empty. -/
def initState : DState :=
  { listeners := [], kindEndpoints := [], endpoints := [] }

/-- The endpoint registered under `(kind, name)`, if any
(`self.__kind_endpoints[kind][name]`). -/
def slotLookup (st : DState) (kind name : String) : Option Endpoint :=
  dictGet ((dictGet st.kindEndpoints kind).getD []) name

/-- The endpoint registered under a uid (`self.__endpoints[uid]`). -/
def uidLookup (st : DState) (uid : String) : Option Endpoint :=
  dictGet st.endpoints uid

/-- All endpoints reachable through the kind index, in index order. -/
def liveEndpoints (st : DState) : List Endpoint :=
  (st.kindEndpoints.map (fun p => p.2.map Prod.snd)).flatten

/-- `Dispatcher.add_endpoint(kind, name, endpoint)`: validate the
arguments, reject an already-known name, store into both indexes, then
run the (uncaught) listener loop and return `True`. -/
def add_endpoint (st : DState) (kind name : String) (endpoint : Option Endpoint) :
    DState × List (Nat × Notif) × Except PyExc Bool :=
  if kind = "" then (st, [], Except.error (PyExc.valueError "Empty kind given"))
  else if name = "" then (st, [], Except.error (PyExc.valueError "Empty name given"))
  else
    match endpoint with
    | Option.none => (st, [], Except.error (PyExc.valueError "No end point given"))
    | some e =>
      let kind_map := (dictGet st.kindEndpoints kind).getD []
      if (dictGet kind_map name).isSome then
        (st, [], Except.error (PyExc.keyError ("Already known end point: " ++ name)))
      else
        let st2 : DState :=
          { st with
            kindEndpoints := dictSet st.kindEndpoints kind (dictSet kind_map name e),
            endpoints := dictSet st.endpoints e.uid e }
        let r := notifyLoop st2.listeners (Notif.added e)
        (st2, r.1, excResult r.2 true)

/-- Modelled from the spec: the `Endpoint` class itself is outside the
given sources, so Python `endpoint != kind_map[name]` is modelled as the
spec's "the stored endpoint's identity differs from the supplied
endpoint", an object-identity comparison. -/
def endpointNe (a b : Endpoint) : Bool :=
  a.objId != b.objId

/-- `Dispatcher.update_endpoint(kind, name, endpoint, old_properties)`:
validate, fail on an unknown name or a different stored endpoint, then
run the (uncaught) listener loop; returns `None` on success. -/
def update_endpoint (st : DState) (kind name : String) (endpoint : Option Endpoint)
    (old_properties : Props) :
    DState × List (Nat × Notif) × Except PyExc Unit :=
  if kind = "" then (st, [], Except.error (PyExc.valueError "Empty kind given"))
  else if name = "" then (st, [], Except.error (PyExc.valueError "Empty name given"))
  else
    match endpoint with
    | Option.none => (st, [], Except.error (PyExc.valueError "No end point given"))
    | some e =>
      let st1 : DState :=
        { st with kindEndpoints := dictSetdefault st.kindEndpoints kind [] }
      let kind_map := (dictGet st1.kindEndpoints kind).getD []
      match dictGet kind_map name with
      | Option.none =>
        (st1, [], Except.error (PyExc.keyError ("Unknown known end point: " ++ name)))
      | some stored =>
        if endpointNe e stored then
          (st1, [], Except.error (PyExc.valueError ("Not the right end point: " ++ name)))
        else
          let r := notifyLoop st1.listeners (Notif.updated e old_properties)
          (st1, r.1, excResult r.2 ())

/-- `Dispatcher.remove_endpoint(kind, name)`: pop the name from the kind
map (`KeyError` when the kind or the name is unknown), delete the uid
entry (`KeyError` when the uid is unknown, with the kind map already
mutated), then run the (uncaught) listener loop. -/
def remove_endpoint (st : DState) (kind name : String) :
    DState × List (Nat × Notif) × Except PyExc Unit :=
  match dictGet st.kindEndpoints kind with
  | Option.none => (st, [], Except.error (PyExc.keyError kind))
  | some kind_map =>
    match dictGet kind_map name with
    | Option.none => (st, [], Except.error (PyExc.keyError name))
    | some e =>
      let st1 : DState :=
        { st with kindEndpoints := dictSet st.kindEndpoints kind (dictRemove kind_map name) }
      match dictGet st1.endpoints e.uid with
      | Option.none => (st1, [], Except.error (PyExc.keyError e.uid))
      | some _ =>
        let st2 : DState := { st1 with endpoints := dictRemove st1.endpoints e.uid }
        let r := notifyLoop st2.listeners (Notif.removed e)
        (st2, r.1, excResult r.2 ())

/-- Truthiness of an optional string filter argument (`None` and `""` are
both falsy in Python). -/
def optTruthy : Option String → Bool
  | Option.none => false
  | some s => if s = "" then false else true

/-- `Dispatcher.get_endpoints(kind, name)`: select the kind maps (one map
for a known, non-empty kind; none for an unknown or empty one; all maps
without a kind filter), then collect by name or take every value. -/
def get_endpoints (st : DState) (kind name : Option String) : List Endpoint :=
  let kind_maps : Option (List (List (String × Endpoint))) :=
    if optTruthy kind then
      match dictGet st.kindEndpoints (kind.getD "") with
      | some km => if km.isEmpty then Option.none else some [km]
      | Option.none => Option.none
    else some (st.kindEndpoints.map Prod.snd)
  match kind_maps with
  | Option.none => []
  | some kms =>
    if optTruthy name then kms.filterMap (fun km => dictGet km (name.getD ""))
    else (kms.map (fun km => km.map Prod.snd)).flatten

/-- `Dispatcher.dispatch(kind, name, method, params)`: look up the
endpoint's instance (`KeyError` becomes `RemoteServiceError` "Unknown
endpoint"), resolve the member with `getattr(service, method, None)`
(`None` raises `RemoteServiceError` "Unknown method"), then invoke it and
let any error propagate. -/
def dispatch (st : DState) (kind name method : String) (params : List Val) :
    Except PyExc Val :=
  match slotLookup st kind name with
  | Option.none => Except.error (PyExc.remoteServiceError ("Unknown endpoint: " ++ name))
  | some ep =>
    match ep.inst method with
    | Option.none => Except.error (PyExc.remoteServiceError ("Unknown method " ++ method))
    | some m => callMember m params

/-- The replay loop of `Dispatcher.bind`: deliver `endpoint_added` for each
live endpoint; the whole loop sits in one `try`/`except`, so a raising
callback aborts the remaining replay (the exception is logged, not
re-raised).  Returns the performed calls. -/
def replay_loop (l : Listener) : List Endpoint → List (Nat × Notif)
  | [] => []
  | e :: rest =>
    match l.excOf (Notif.added e) with
    | some _ => [(l.id, Notif.added e)]
    | Option.none => (l.id, Notif.added e) :: replay_loop l rest

/-- `Dispatcher.bind(svc, svc_ref)` together with the framework injection
into `self._listeners`.  `is_exported_listener` stands for the source's
check that the bound service reference carries the endpoint-listener
specification and the listen-exported property (the constants live outside
the given sources).  When it holds, the current `__endpoints.values()` are
replayed to the new listener. -/
def bind (st : DState) (l : Listener) (is_exported_listener : Bool) :
    DState × List (Nat × Notif) :=
  let st2 : DState := { st with listeners := st.listeners ++ [l] }
  if is_exported_listener then
    (st2, replay_loop l (st2.endpoints.map Prod.snd))
  else (st2, [])

/-- A registry mutation, for reasoning about sequences of
`add_endpoint` / `remove_endpoint` calls. -/
inductive RegOp where
  | add (kind name : String) (e : Endpoint)
  | remove (kind name : String)

/-- Apply one mutation, keeping the resulting state (errors leave the
state as the method left it). -/
def applyOp (st : DState) : RegOp → DState
  | RegOp.add k n e => (add_endpoint st k n (some e)).1
  | RegOp.remove k n => (remove_endpoint st k n).1

/-- Run a sequence of mutations. -/
def runOps (st : DState) : List RegOp → DState
  | [] => st
  | op :: rest => runOps (applyOp st op) rest

/-- The `(kind, name)` pairs of the `add` operations of a sequence. -/
def addKeys : List RegOp → List (String × String)
  | [] => []
  | RegOp.add k n _ :: rest => (k, n) :: addKeys rest
  | RegOp.remove _ _ :: rest => addKeys rest

/-- The uids of the endpoints passed to the `add` operations of a
sequence. -/
def addUids : List RegOp → List String
  | [] => []
  | RegOp.add _ _ e :: rest => e.uid :: addUids rest
  | RegOp.remove _ _ :: rest => addUids rest

/-- The two indexes are bijective views of the same live endpoint set:
every endpoint in the uid index occupies exactly one `(kind, name)` slot,
and every endpoint in a slot appears in the uid index under exactly one
uid. -/
def IndexBijective (st : DState) : Prop :=
  (∀ u e, uidLookup st u = some e →
    ∃! kn : String × String, slotLookup st kn.1 kn.2 = some e) ∧
  (∀ k n e, slotLookup st k n = some e →
    ∃! u : String, uidLookup st u = some e)

/-- The registry coherence invariant: slots point into the uid index at
the endpoint's own uid, uid entries sit in some slot under their own uid,
and no endpoint occupies two slots. -/
structure RegInv (st : DState) : Prop where
  slot_uid : ∀ k n e, slotLookup st k n = some e → uidLookup st e.uid = some e
  uid_slot : ∀ u e, uidLookup st u = some e →
    u = e.uid ∧ ∃ k n, slotLookup st k n = some e
  slot_unique : ∀ k n k' n' e, slotLookup st k n = some e →
    slotLookup st k' n' = some e → k = k' ∧ n = n'

/-- State of a `RegistryServlet`: the service controller flag and the
list of ports of the HTTP servers currently exposing the servlet. -/
structure RegistryServlet where
  controller : Bool
  ports : List Int

/-- A freshly constructed servlet: inactive, no bound port. -/
def servletInit : RegistryServlet :=
  { controller := false, ports := [] }

/-- Python `list.remove`: drop the first occurrence of a value. -/
def listRemove : List Int → Int → List Int
  | [], _ => []
  | x :: rest, p => if x = p then rest else x :: listRemove rest p

/-- `RegistryServlet.bound_to(path, parameters)`, reduced to the
`http.port` parameter: record an unknown port and activate the
controller. -/
def bound_to (s : RegistryServlet) (port : Int) : RegistryServlet :=
  if port ∈ s.ports then s
  else { controller := true, ports := s.ports ++ [port] }

/-- `RegistryServlet.unbound_from(path, parameters)`: drop a known port
and deactivate the controller when no port remains. -/
def unbound_from (s : RegistryServlet) (port : Int) : RegistryServlet :=
  if port ∈ s.ports then
    let ports2 := listRemove s.ports port
    { controller := if ports2.isEmpty then false else s.controller, ports := ports2 }
  else s

/-- One `bound_to` or `unbound_from` call, with its port. -/
inductive PortOp where
  | boundTo (port : Int)
  | unboundFrom (port : Int)

/-- Apply one port operation. -/
def applyPortOp (s : RegistryServlet) : PortOp → RegistryServlet
  | PortOp.boundTo p => bound_to s p
  | PortOp.unboundFrom p => unbound_from s p

/-- Run a sequence of port operations. -/
def runPortOps (s : RegistryServlet) : List PortOp → RegistryServlet
  | [] => s
  | op :: rest => runPortOps (applyPortOp s op) rest

/-- The `previous_properties` argument of `ServiceEvent.__init__` as a
Python value: `None`, a `dict`, or some other (non-mapping) object. -/
inductive PyPrev (α : Type) where
  | pynone
  | pydict (d : List (String × α))
  | pyother (v : α)

/-- A `ServiceEvent` bean (`pelix/internals/events.py`), over a reference
type `ρ` and a property-value type `α`. -/
structure ServiceEvent (ρ α : Type) where
  kind : Int
  reference : ρ
  previous_properties : PyPrev α

/-- `ServiceEvent.__init__(kind, reference, previous_properties)`: a
previous-properties argument that is neither `None` nor a `dict` is
replaced by an empty `dict` before being stored. -/
def serviceEventInit {ρ α : Type} (kind : Int) (reference : ρ)
    (previous_properties : PyPrev α) : ServiceEvent ρ α :=
  { kind := kind
    reference := reference
    previous_properties :=
      match previous_properties with
      | PyPrev.pyother _ => PyPrev.pydict []
      | p => p }

/-- `ServiceEvent.get_previous_properties()`: return the stored value. -/
def get_previous_properties {ρ α : Type} (ev : ServiceEvent ρ α) : PyPrev α :=
  ev.previous_properties

/-- An instance exposing one callable member `add` that sums two integer
arguments (the spec's `adder` scenario). -/
def mAdd : Member :=
  Member.callable (fun params =>
    match params with
    | [Val.int a, Val.int b] => Except.ok (Val.int (a + b))
    | _ => Except.error (PyExc.typeError "unsupported operand"))

/-- The adder service object: member `add` only. -/
def adderObj : String → Option Member :=
  fun s => if s = "add" then some mAdd else Option.none

/-- The adder endpoint, registered as `("http", "calc")`. -/
def epC1 : Endpoint :=
  { objId := 1, uid := "u1", kind := "http", name := "calc", inst := adderObj }

/-- A dispatcher holding only the adder endpoint. -/
def stC1 : DState :=
  { listeners := []
    kindEndpoints := [("http", [("calc", epC1)])]
    endpoints := [("u1", epC1)] }

/-- An endpoint whose instance has a non-callable attribute `m` (value
`5`) and no callable members. -/
def epC2 : Endpoint :=
  { objId := 2, uid := "u2", kind := "k", name := "n"
    inst := fun s => if s = "m" then some (Member.attr (Val.int 5)) else Option.none }

/-- A dispatcher holding only `epC2`. -/
def stC2 : DState :=
  { listeners := []
    kindEndpoints := [("k", [("n", epC2)])]
    endpoints := [("u2", epC2)] }

/-- An endpoint with no members at all, for exercising the registry. -/
def bareEndpoint (objId : Nat) (uid kind name : String) : Endpoint :=
  { objId := objId, uid := uid, kind := kind, name := name, inst := fun _ => Option.none }

/-- First endpoint of the duplicate-uid scenario: uid `u` at `(k1, n1)`. -/
def e1C3 : Endpoint := bareEndpoint 31 "u" "k1" "n1"

/-- Second endpoint of the duplicate-uid scenario: the same uid `u` at the
distinct slot `(k2, n2)`. -/
def e2C3 : Endpoint := bareEndpoint 32 "u" "k2" "n2"

/-- Two adds with distinct `(kind, name)` pairs but one shared uid. -/
def opsC3cex : List RegOp :=
  [RegOp.add "k1" "n1" e1C3, RegOp.add "k2" "n2" e2C3]

/-- A listener (id 1) whose callbacks always raise `ValueError "boom"`. -/
def lraise : Listener :=
  { id := 1, excOf := fun _ => some (PyExc.valueError "boom") }

/-- A listener (id 2) whose callbacks never raise. -/
def lok : Listener :=
  { id := 2, excOf := fun _ => Option.none }

/-- The endpoint added in the listener-failure scenario. -/
def eC4 : Endpoint := bareEndpoint 4 "u4" "k" "n"

/-- A dispatcher with a raising listener followed by a well-behaved one,
and empty indexes. -/
def stC4 : DState :=
  { listeners := [lraise, lok], kindEndpoints := [], endpoints := [] }

/-- An endpoint already registered at `(k, n)` for the witness scenarios
of the mutator claims. -/
def epC4w : Endpoint := bareEndpoint 40 "u40" "k" "n"

/-- The fresh endpoint added at `(k, n2)` in the witness scenarios. -/
def eC4b : Endpoint := bareEndpoint 41 "u41" "k" "n2"

/-- A dispatcher holding `epC4w` with a single raising listener. -/
def stC4w : DState :=
  { listeners := [lraise]
    kindEndpoints := [("k", [("n", epC4w)])]
    endpoints := [("u40", epC4w)] }

/-- Endpoints of the replay scenario. -/
def e1C5 : Endpoint := bareEndpoint 51 "u51" "k" "n1"

/-- Second endpoint of the replay scenario. -/
def e2C5 : Endpoint := bareEndpoint 52 "u52" "k" "n2"

/-- A dispatcher holding two live endpoints, reached by two valid adds
from the fresh state. -/
def stC5 : DState :=
  (add_endpoint (add_endpoint initState "k" "n1" (some e1C5)).1 "k" "n2" (some e2C5)).1

/-- The endpoint originally stored at `(k, n)` in the duplicate-add
scenario. -/
def e0C6 : Endpoint := bareEndpoint 60 "u60" "k" "n"

/-- The endpoint whose add must be rejected. -/
def e2C6 : Endpoint := bareEndpoint 61 "u61" "k" "n"

/-- A dispatcher holding only `e0C6`. -/
def stC6 : DState :=
  { listeners := []
    kindEndpoints := [("k", [("n", e0C6)])]
    endpoints := [("u60", e0C6)] }

/-- The endpoint stored at `(k, n)` in the update scenarios. -/
def epC7 : Endpoint := bareEndpoint 70 "u70" "k" "n"

/-- A distinct endpoint object (different identity) with the same slot,
for the mismatch case. -/
def epC7b : Endpoint := bareEndpoint 71 "u70" "k" "n"

/-- The superseded-properties snapshot passed to `update_endpoint`. -/
def propsC7 : Props := [("p", Val.int 1)]

/-- A dispatcher holding `epC7`, with one well-behaved listener. -/
def stC7 : DState :=
  { listeners := [lok]
    kindEndpoints := [("k", [("n", epC7)])]
    endpoints := [("u70", epC7)] }

/-- An endpoint named `n` under kind `k1`. -/
def e1C8 : Endpoint := bareEndpoint 81 "u81" "k1" "n"

/-- An endpoint with the same name `n` under the distinct kind `k2`. -/
def e2C8 : Endpoint := bareEndpoint 82 "u82" "k2" "n"

/-- A dispatcher holding the two same-named endpoints, reached by two
valid adds from the fresh state. -/
def stC8 : DState :=
  (add_endpoint (add_endpoint initState "k1" "n" (some e1C8)).1 "k2" "n" (some e2C8)).1

/-- Recognizer for a raised `KeyError`, of whatever message. -/
def isKeyError {β : Type} : Except PyExc β → Bool
  | Except.error (PyExc.keyError _) => true
  | _ => false

/-! Characterization lemmas for the dict model. -/

theorem dictGet_dictSet {α : Type} (l : List (String × α)) (k k' : String) (v : α) :
    dictGet (dictSet l k v) k' = if k' = k then some v else dictGet l k' := by
  induction l with
  | nil =>
    simp only [dictSet, dictGet]
    by_cases h : k = k'
    · subst h; simp
    · rw [if_neg h, if_neg (fun hh => h hh.symm)]
  | cons p rest ih =>
    by_cases hpk : p.1 = k
    · simp only [dictSet, if_pos hpk, dictGet]
      by_cases h : k' = k
      · subst h; simp
      · rw [if_neg (fun hh : k = k' => h hh.symm), if_neg h,
          if_neg (fun hh : p.1 = k' => h (hpk.symm.trans hh).symm)]
    · simp only [dictSet, if_neg hpk, dictGet]
      by_cases hp' : p.1 = k'
      · have hk' : ¬ k' = k := fun hh => hpk (hp'.trans hh)
        rw [if_pos hp', if_neg hk', if_pos hp']
      · rw [if_neg hp', ih, if_neg hp']

theorem dictGet_dictRemove {α : Type} (l : List (String × α)) (k k' : String) :
    dictGet (dictRemove l k) k' = if k' = k then Option.none else dictGet l k' := by
  induction l with
  | nil => simp only [dictRemove, dictGet]; by_cases h : k' = k <;> simp [h]
  | cons p rest ih =>
    by_cases hpk : p.1 = k
    · simp only [dictRemove, if_pos hpk, dictGet, ih]
      by_cases h : k' = k
      · simp [h]
      · rw [if_neg h, if_neg h, if_neg (fun hh : p.1 = k' => h (hpk.symm.trans hh).symm)]
    · simp only [dictRemove, if_neg hpk, dictGet]
      by_cases hp' : p.1 = k'
      · have hk' : ¬ k' = k := fun hh => hpk (hp'.trans hh)
        rw [if_pos hp', if_neg hk', if_pos hp']
      · rw [if_neg hp', ih, if_neg hp']

theorem dictGet_append {α : Type} (l m : List (String × α)) (k : String) :
    dictGet (l ++ m) k =
      match dictGet l k with
      | some v => some v
      | Option.none => dictGet m k := by
  induction l with
  | nil => simp [dictGet]
  | cons p rest ih =>
    simp only [List.cons_append, dictGet]
    by_cases hp : p.1 = k
    · simp [hp]
    · simp only [if_neg hp, List.append_eq, ih]

theorem dictSetdefault_of_some {α : Type} {l : List (String × α)} {k : String} {w : α}
    (v : α) (h : dictGet l k = some w) : dictSetdefault l k v = l := by
  unfold dictSetdefault; rw [h]

theorem slotLookup_some {st : DState} {k n : String} {e : Endpoint}
    (h : slotLookup st k n = some e) :
    ∃ km, dictGet st.kindEndpoints k = some km ∧ dictGet km n = some e := by
  unfold slotLookup at h
  cases hk : dictGet st.kindEndpoints k with
  | none => rw [hk] at h; exact absurd h (by simp [dictGet])
  | some km => rw [hk] at h; exact ⟨km, rfl, h⟩

/-! Reduction lemmas for the dispatcher mutators. -/

theorem add_success_parts (st : DState) (kind name : String) (e : Endpoint)
    (hk : ¬ kind = "") (hn : ¬ name = "")
    (hfresh : slotLookup st kind name = Option.none) :
    add_endpoint st kind name (some e) =
      ({ st with
          kindEndpoints := dictSet st.kindEndpoints kind
            (dictSet ((dictGet st.kindEndpoints kind).getD []) name e),
          endpoints := dictSet st.endpoints e.uid e },
        (notifyLoop st.listeners (Notif.added e)).1,
        excResult (notifyLoop st.listeners (Notif.added e)).2 true) := by
  have hf : dictGet ((dictGet st.kindEndpoints kind).getD []) name = Option.none := hfresh
  unfold add_endpoint
  rw [if_neg hk, if_neg hn]
  simp only [hf, Option.isSome_none, Bool.false_eq_true, if_false]

theorem add_dup_parts (st : DState) (kind name : String) (e w : Endpoint)
    (hk : ¬ kind = "") (hn : ¬ name = "")
    (hmem : slotLookup st kind name = some w) :
    add_endpoint st kind name (some e) =
      (st, [], Except.error (PyExc.keyError ("Already known end point: " ++ name))) := by
  have hm : dictGet ((dictGet st.kindEndpoints kind).getD []) name = some w := hmem
  unfold add_endpoint
  rw [if_neg hk, if_neg hn]
  simp only [hm, Option.isSome_some, if_true]

theorem add_slot_char (st : DState) (kind name : String) (e : Endpoint)
    (hk : ¬ kind = "") (hn : ¬ name = "")
    (hfresh : slotLookup st kind name = Option.none) (a b : String) :
    slotLookup (add_endpoint st kind name (some e)).1 a b =
      if a = kind ∧ b = name then some e else slotLookup st a b := by
  rw [add_success_parts st kind name e hk hn hfresh]
  show dictGet ((dictGet (dictSet st.kindEndpoints kind
      (dictSet ((dictGet st.kindEndpoints kind).getD []) name e)) a).getD []) b = _
  rw [dictGet_dictSet]
  by_cases ha : a = kind
  · rw [if_pos ha, Option.getD_some, dictGet_dictSet]
    by_cases hb : b = name
    · rw [if_pos hb, if_pos ⟨ha, hb⟩]
    · rw [if_neg hb, if_neg (fun hab => hb hab.2), ha]
      rfl
  · rw [if_neg ha, if_neg (fun hab => ha hab.1)]
    rfl

theorem add_uid_char (st : DState) (kind name : String) (e : Endpoint)
    (hk : ¬ kind = "") (hn : ¬ name = "")
    (hfresh : slotLookup st kind name = Option.none) (u : String) :
    uidLookup (add_endpoint st kind name (some e)).1 u =
      if u = e.uid then some e else uidLookup st u := by
  rw [add_success_parts st kind name e hk hn hfresh]
  show dictGet (dictSet st.endpoints e.uid e) u = _
  rw [dictGet_dictSet]
  rfl

theorem remove_success_parts (st : DState) (kind name : String)
    (km : List (String × Endpoint)) (e0 w : Endpoint)
    (hkm : dictGet st.kindEndpoints kind = some km)
    (hname : dictGet km name = some e0)
    (huid : dictGet st.endpoints e0.uid = some w) :
    remove_endpoint st kind name =
      ({ st with
          kindEndpoints := dictSet st.kindEndpoints kind (dictRemove km name),
          endpoints := dictRemove st.endpoints e0.uid },
        (notifyLoop st.listeners (Notif.removed e0)).1,
        excResult (notifyLoop st.listeners (Notif.removed e0)).2 ()) := by
  unfold remove_endpoint
  simp only [hkm, hname, huid]

theorem remove_notfound_parts (st : DState) (kind name : String)
    (h : slotLookup st kind name = Option.none) :
    (remove_endpoint st kind name).1 = st ∧
    (remove_endpoint st kind name).2.1 = [] ∧
    isKeyError (remove_endpoint st kind name).2.2 = true := by
  unfold remove_endpoint
  cases hkm : dictGet st.kindEndpoints kind with
  | none => exact ⟨rfl, rfl, rfl⟩
  | some km =>
    have hname : dictGet km name = Option.none := by
      have heq : slotLookup st kind name = dictGet km name := by
        simp [slotLookup, hkm]
      rw [heq.symm, h]
    simp only [hname]
    exact ⟨trivial, trivial, rfl⟩

theorem remove_slot_char (st : DState) (kind name : String)
    (km : List (String × Endpoint)) (e0 w : Endpoint)
    (hkm : dictGet st.kindEndpoints kind = some km)
    (hname : dictGet km name = some e0)
    (huid : dictGet st.endpoints e0.uid = some w) (a b : String) :
    slotLookup (remove_endpoint st kind name).1 a b =
      if a = kind ∧ b = name then Option.none else slotLookup st a b := by
  rw [remove_success_parts st kind name km e0 w hkm hname huid]
  show dictGet ((dictGet (dictSet st.kindEndpoints kind (dictRemove km name)) a).getD []) b = _
  rw [dictGet_dictSet]
  by_cases ha : a = kind
  · rw [if_pos ha, Option.getD_some, dictGet_dictRemove]
    by_cases hb : b = name
    · rw [if_pos hb, if_pos ⟨ha, hb⟩]
    · rw [if_neg hb, if_neg (fun hab => hb hab.2), ha]
      unfold slotLookup
      rw [hkm]
      rfl
  · rw [if_neg ha, if_neg (fun hab => ha hab.1)]
    rfl

theorem remove_uid_char (st : DState) (kind name : String)
    (km : List (String × Endpoint)) (e0 w : Endpoint)
    (hkm : dictGet st.kindEndpoints kind = some km)
    (hname : dictGet km name = some e0)
    (huid : dictGet st.endpoints e0.uid = some w) (u : String) :
    uidLookup (remove_endpoint st kind name).1 u =
      if u = e0.uid then Option.none else uidLookup st u := by
  rw [remove_success_parts st kind name km e0 w hkm hname huid]
  show dictGet (dictRemove st.endpoints e0.uid) u = _
  rw [dictGet_dictRemove]
  rfl

theorem update_notfound_parts (st : DState) (kind name : String) (e : Endpoint)
    (props : Props) (hk : ¬ kind = "") (hn : ¬ name = "")
    (h : slotLookup st kind name = Option.none) :
    (update_endpoint st kind name (some e) props).2.1 = [] ∧
    (update_endpoint st kind name (some e) props).2.2 =
      Except.error (PyExc.keyError ("Unknown known end point: " ++ name)) := by
  have h1 : dictGet ((dictGet (dictSetdefault st.kindEndpoints kind []) kind).getD []) name
      = Option.none := by
    cases hkm : dictGet st.kindEndpoints kind with
    | some km =>
      rw [dictSetdefault_of_some _ hkm, hkm, Option.getD_some]
      have heq : slotLookup st kind name = dictGet km name := by
        simp [slotLookup, hkm]
      rw [heq.symm, h]
    | none =>
      unfold dictSetdefault
      rw [hkm]
      rw [dictGet_append]
      rw [hkm]
      simp [dictGet]
  unfold update_endpoint
  rw [if_neg hk, if_neg hn]
  simp only [h1]
  exact ⟨trivial, trivial⟩

theorem update_mismatch_parts (st : DState) (kind name : String) (e stored : Endpoint)
    (props : Props) (hk : ¬ kind = "") (hn : ¬ name = "")
    (hstored : slotLookup st kind name = some stored)
    (hne : endpointNe e stored = true) :
    (update_endpoint st kind name (some e) props).2.1 = [] ∧
    (update_endpoint st kind name (some e) props).2.2 =
      Except.error (PyExc.valueError ("Not the right end point: " ++ name)) := by
  obtain ⟨km, hkm, hname⟩ := slotLookup_some hstored
  have h1 : dictGet ((dictGet (dictSetdefault st.kindEndpoints kind []) kind).getD []) name
      = some stored := by
    rw [dictSetdefault_of_some _ hkm, hkm, Option.getD_some, hname]
  unfold update_endpoint
  rw [if_neg hk, if_neg hn]
  simp only [h1, hne, if_true]
  exact ⟨trivial, trivial⟩

theorem update_success_parts (st : DState) (kind name : String) (e stored : Endpoint)
    (props : Props) (hk : ¬ kind = "") (hn : ¬ name = "")
    (hstored : slotLookup st kind name = some stored)
    (hne : endpointNe e stored = false) :
    (update_endpoint st kind name (some e) props).2.1 =
      (notifyLoop st.listeners (Notif.updated e props)).1 ∧
    (update_endpoint st kind name (some e) props).2.2 =
      excResult (notifyLoop st.listeners (Notif.updated e props)).2 () ∧
    (update_endpoint st kind name (some e) props).1.listeners = st.listeners ∧
    slotLookup (update_endpoint st kind name (some e) props).1 kind name = some stored := by
  obtain ⟨km, hkm, hname⟩ := slotLookup_some hstored
  unfold update_endpoint
  rw [if_neg hk, if_neg hn]
  simp only [dictSetdefault_of_some _ hkm]
  have h2 : dictGet ((dictGet st.kindEndpoints kind).getD []) name = some stored := hstored
  simp only [h2, hne, Bool.false_eq_true, if_false]
  exact ⟨by trivial, by trivial, by trivial, hstored⟩

/-! Monotonicity of the indexes under failed or successful mutations. -/

theorem add_slot_mono (st : DState) (kind name : String) (eo : Option Endpoint)
    (a b : String) (x : Endpoint)
    (h : slotLookup (add_endpoint st kind name eo).1 a b = some x) :
    (a = kind ∧ b = name) ∨ slotLookup st a b = some x := by
  by_cases hk : kind = ""
  · right; unfold add_endpoint at h; rw [if_pos hk] at h; exact h
  by_cases hn : name = ""
  · right; unfold add_endpoint at h; rw [if_neg hk, if_pos hn] at h; exact h
  cases eo with
  | none =>
    right; unfold add_endpoint at h; rw [if_neg hk, if_neg hn] at h; exact h
  | some e =>
    cases hmem : slotLookup st kind name with
    | some w =>
      right; rw [add_dup_parts st kind name e w hk hn hmem] at h; exact h
    | none =>
      rw [add_slot_char st kind name e hk hn hmem a b] at h
      by_cases hab : a = kind ∧ b = name
      · exact Or.inl hab
      · right; rw [if_neg hab] at h; exact h

theorem add_uid_mono (st : DState) (kind name : String) (eo : Option Endpoint)
    (u : String) (x : Endpoint)
    (h : uidLookup (add_endpoint st kind name eo).1 u = some x) :
    (∃ e, eo = some e ∧ u = e.uid) ∨ uidLookup st u = some x := by
  by_cases hk : kind = ""
  · right; unfold add_endpoint at h; rw [if_pos hk] at h; exact h
  by_cases hn : name = ""
  · right; unfold add_endpoint at h; rw [if_neg hk, if_pos hn] at h; exact h
  cases eo with
  | none =>
    right; unfold add_endpoint at h; rw [if_neg hk, if_neg hn] at h; exact h
  | some e =>
    cases hmem : slotLookup st kind name with
    | some w =>
      right; rw [add_dup_parts st kind name e w hk hn hmem] at h; exact h
    | none =>
      rw [add_uid_char st kind name e hk hn hmem u] at h
      by_cases hu : u = e.uid
      · exact Or.inl ⟨e, rfl, hu⟩
      · right; rw [if_neg hu] at h; exact h

theorem slot_after_kindRemove (st : DState) (kind name : String)
    (km : List (String × Endpoint))
    (hkm : dictGet st.kindEndpoints kind = some km) (a b : String) :
    slotLookup { st with kindEndpoints := dictSet st.kindEndpoints kind (dictRemove km name) }
        a b =
      if a = kind ∧ b = name then Option.none else slotLookup st a b := by
  show dictGet ((dictGet (dictSet st.kindEndpoints kind (dictRemove km name)) a).getD []) b = _
  rw [dictGet_dictSet]
  by_cases ha : a = kind
  · rw [if_pos ha, Option.getD_some, dictGet_dictRemove]
    by_cases hb : b = name
    · rw [if_pos hb, if_pos ⟨ha, hb⟩]
    · rw [if_neg hb, if_neg (fun hab => hb hab.2), ha]
      unfold slotLookup
      rw [hkm]
      rfl
  · rw [if_neg ha, if_neg (fun hab => ha hab.1)]
    rfl

theorem remove_slot_mono (st : DState) (kind name a b : String) (x : Endpoint)
    (h : slotLookup (remove_endpoint st kind name).1 a b = some x) :
    slotLookup st a b = some x := by
  cases hkm : dictGet st.kindEndpoints kind with
  | none => unfold remove_endpoint at h; rw [hkm] at h; exact h
  | some km =>
    cases hname : dictGet km name with
    | none =>
      unfold remove_endpoint at h; rw [hkm] at h; simp only [hname] at h; exact h
    | some e0 =>
      cases huid : dictGet st.endpoints e0.uid with
      | some w =>
        rw [remove_slot_char st kind name km e0 w hkm hname huid a b] at h
        by_cases hab : a = kind ∧ b = name
        · rw [if_pos hab] at h; exact absurd h (by simp)
        · rw [if_neg hab] at h; exact h
      | none =>
        unfold remove_endpoint at h
        rw [hkm] at h
        simp only [hname, huid] at h
        rw [slot_after_kindRemove st kind name km hkm a b] at h
        by_cases hab : a = kind ∧ b = name
        · rw [if_pos hab] at h; exact absurd h (by simp)
        · rw [if_neg hab] at h; exact h

theorem remove_uid_mono (st : DState) (kind name u : String) (x : Endpoint)
    (h : uidLookup (remove_endpoint st kind name).1 u = some x) :
    uidLookup st u = some x := by
  cases hkm : dictGet st.kindEndpoints kind with
  | none => unfold remove_endpoint at h; rw [hkm] at h; exact h
  | some km =>
    cases hname : dictGet km name with
    | none =>
      unfold remove_endpoint at h; rw [hkm] at h; simp only [hname] at h; exact h
    | some e0 =>
      cases huid : dictGet st.endpoints e0.uid with
      | some w =>
        rw [remove_uid_char st kind name km e0 w hkm hname huid u] at h
        by_cases hu : u = e0.uid
        · rw [if_pos hu] at h; exact absurd h (by simp)
        · rw [if_neg hu] at h; exact h
      | none =>
        unfold remove_endpoint at h
        rw [hkm] at h
        simp only [hname, huid] at h
        exact h

/-! Lemmas about the listener loops. -/

theorem notifyLoop_ok (ls : List Listener) (n : Notif)
    (h : ∀ l ∈ ls, l.excOf n = Option.none) :
    notifyLoop ls n = (ls.map (fun l => (l.id, n)), Option.none) := by
  induction ls with
  | nil => rfl
  | cons l rest ih =>
    have hl : l.excOf n = Option.none := h l (List.mem_cons_self l rest)
    simp only [notifyLoop, hl, List.map_cons]
    rw [ih (fun x hx => h x (List.mem_cons_of_mem l hx))]

theorem notifyLoop_raise (ls1 : List Listener) (l : Listener) (ls2 : List Listener)
    (n : Notif) (ex : PyExc)
    (h1 : ∀ x ∈ ls1, x.excOf n = Option.none) (h2 : l.excOf n = some ex) :
    notifyLoop (ls1 ++ l :: ls2) n =
      (ls1.map (fun x => (x.id, n)) ++ [(l.id, n)], some ex) := by
  induction ls1 with
  | nil =>
    simp only [List.nil_append, notifyLoop, h2, List.map_nil]
  | cons y rest ih =>
    have hy : y.excOf n = Option.none := h1 y (List.mem_cons_self y rest)
    simp only [List.cons_append, notifyLoop, hy, List.map_cons, List.append_eq]
    rw [ih (fun x hx => h1 x (List.mem_cons_of_mem y hx))]

theorem replay_loop_ok (l : Listener) (es : List Endpoint)
    (h : ∀ e ∈ es, l.excOf (Notif.added e) = Option.none) :
    replay_loop l es = es.map (fun e => (l.id, Notif.added e)) := by
  induction es with
  | nil => rfl
  | cons e rest ih =>
    have he : l.excOf (Notif.added e) = Option.none := h e (List.mem_cons_self e rest)
    simp only [replay_loop, he, List.map_cons]
    rw [ih (fun x hx => h x (List.mem_cons_of_mem e hx))]

/-! Preservation of the registry coherence invariant. -/

theorem regInv_init : RegInv initState := by
  constructor
  · intro k n e h; exact Option.noConfusion h
  · intro u e h; exact Option.noConfusion h
  · intro k n k' n' e h _; exact absurd h (fun hh => Option.noConfusion hh)

theorem regInv_add (st : DState) (kind name : String) (e : Endpoint) (hI : RegInv st)
    (hfresh : slotLookup st kind name = Option.none)
    (hufresh : uidLookup st e.uid = Option.none) :
    RegInv (add_endpoint st kind name (some e)).1 := by
  by_cases hk : kind = ""
  · have hst : (add_endpoint st kind name (some e)).1 = st := by
      unfold add_endpoint; rw [if_pos hk]
    rw [hst]; exact hI
  by_cases hn : name = ""
  · have hst : (add_endpoint st kind name (some e)).1 = st := by
      unfold add_endpoint; rw [if_neg hk, if_pos hn]
    rw [hst]; exact hI
  have hs := add_slot_char st kind name e hk hn hfresh
  have hu := add_uid_char st kind name e hk hn hfresh
  constructor
  · intro a b x hx
    rw [hs a b] at hx
    rw [hu x.uid]
    by_cases hab : a = kind ∧ b = name
    · rw [if_pos hab] at hx
      injection hx with hx
      subst hx
      rw [if_pos rfl]
    · rw [if_neg hab] at hx
      have h1 := hI.slot_uid a b x hx
      by_cases hux : x.uid = e.uid
      · exfalso; rw [hux, hufresh] at h1; exact Option.noConfusion h1
      · rw [if_neg hux]; exact h1
  · intro u x hx
    rw [hu u] at hx
    by_cases hue : u = e.uid
    · rw [if_pos hue] at hx
      injection hx with hx
      subst hx
      refine ⟨hue, kind, name, ?_⟩
      rw [hs kind name, if_pos ⟨rfl, rfl⟩]
    · rw [if_neg hue] at hx
      obtain ⟨h1, a, b, h2⟩ := hI.uid_slot u x hx
      refine ⟨h1, a, b, ?_⟩
      rw [hs a b]
      by_cases hab : a = kind ∧ b = name
      · exfalso
        rw [hab.1, hab.2, hfresh] at h2
        exact Option.noConfusion h2
      · rw [if_neg hab]; exact h2
  · intro a b a' b' x h1 h2
    rw [hs a b] at h1
    rw [hs a' b'] at h2
    by_cases hab : a = kind ∧ b = name
    · rw [if_pos hab] at h1
      by_cases hab' : a' = kind ∧ b' = name
      · exact ⟨hab.1.trans hab'.1.symm, hab.2.trans hab'.2.symm⟩
      · exfalso
        rw [if_neg hab'] at h2
        injection h1 with h1
        subst h1
        have h3 := hI.slot_uid a' b' e h2
        rw [hufresh] at h3
        exact Option.noConfusion h3
    · rw [if_neg hab] at h1
      by_cases hab' : a' = kind ∧ b' = name
      · exfalso
        rw [if_pos hab'] at h2
        injection h2 with h2
        subst h2
        have h3 := hI.slot_uid a b e h1
        rw [hufresh] at h3
        exact Option.noConfusion h3
      · rw [if_neg hab'] at h2
        exact hI.slot_unique a b a' b' x h1 h2

theorem regInv_remove (st : DState) (kind name : String) (hI : RegInv st) :
    RegInv (remove_endpoint st kind name).1 := by
  cases hkm : dictGet st.kindEndpoints kind with
  | none =>
    have hst : (remove_endpoint st kind name).1 = st := by
      unfold remove_endpoint; rw [hkm]
    rw [hst]; exact hI
  | some km =>
    cases hname : dictGet km name with
    | none =>
      have hst : (remove_endpoint st kind name).1 = st := by
        unfold remove_endpoint; rw [hkm]; simp only [hname]
      rw [hst]; exact hI
    | some e0 =>
      have hslot : slotLookup st kind name = some e0 := by
        simp [slotLookup, hkm, hname]
      have huid0 : uidLookup st e0.uid = some e0 := hI.slot_uid kind name e0 hslot
      have hs := remove_slot_char st kind name km e0 e0 hkm hname huid0
      have hu := remove_uid_char st kind name km e0 e0 hkm hname huid0
      constructor
      · intro a b x hx
        rw [hs a b] at hx
        by_cases hab : a = kind ∧ b = name
        · rw [if_pos hab] at hx; exact absurd hx (fun hh => Option.noConfusion hh)
        · rw [if_neg hab] at hx
          have h1 := hI.slot_uid a b x hx
          rw [hu x.uid]
          by_cases hxe : x.uid = e0.uid
          · exfalso
            rw [hxe, huid0] at h1
            injection h1 with h1
            subst h1
            exact hab (hI.slot_unique a b kind name e0 hx hslot)
          · rw [if_neg hxe]; exact h1
      · intro u x hx
        rw [hu u] at hx
        by_cases hue : u = e0.uid
        · rw [if_pos hue] at hx; exact absurd hx (fun hh => Option.noConfusion hh)
        · rw [if_neg hue] at hx
          obtain ⟨h1, a, b, h2⟩ := hI.uid_slot u x hx
          refine ⟨h1, a, b, ?_⟩
          rw [hs a b]
          by_cases hab : a = kind ∧ b = name
          · exfalso
            rw [hab.1, hab.2, hslot] at h2
            injection h2 with h2
            subst h2
            exact hue h1
          · rw [if_neg hab]; exact h2
      · intro a b a' b' x h1 h2
        rw [hs a b] at h1
        rw [hs a' b'] at h2
        by_cases hab : a = kind ∧ b = name
        · rw [if_pos hab] at h1; exact absurd h1 (fun hh => Option.noConfusion hh)
        · by_cases hab' : a' = kind ∧ b' = name
          · rw [if_pos hab'] at h2; exact absurd h2 (fun hh => Option.noConfusion hh)
          · rw [if_neg hab] at h1
            rw [if_neg hab'] at h2
            exact hI.slot_unique a b a' b' x h1 h2

theorem mem_addKeys {ops : List RegOp} {k n : String} {e : Endpoint}
    (h : RegOp.add k n e ∈ ops) : (k, n) ∈ addKeys ops := by
  induction ops with
  | nil => cases h
  | cons op rest ih =>
    cases op with
    | add k' n' e' =>
      rcases List.mem_cons.mp h with heq | hmem
      · injection heq with h1 h2 h3
        subst h1; subst h2
        exact List.mem_cons_self _ _
      · exact List.mem_cons_of_mem _ (ih hmem)
    | remove k' n' =>
      rcases List.mem_cons.mp h with heq | hmem
      · exact RegOp.noConfusion heq
      · exact ih hmem

theorem mem_addUids {ops : List RegOp} {k n : String} {e : Endpoint}
    (h : RegOp.add k n e ∈ ops) : e.uid ∈ addUids ops := by
  induction ops with
  | nil => cases h
  | cons op rest ih =>
    cases op with
    | add k' n' e' =>
      rcases List.mem_cons.mp h with heq | hmem
      · injection heq with h1 h2 h3
        subst h3
        exact List.mem_cons_self _ _
      · exact List.mem_cons_of_mem _ (ih hmem)
    | remove k' n' =>
      rcases List.mem_cons.mp h with heq | hmem
      · exact RegOp.noConfusion heq
      · exact ih hmem

theorem runOps_inv (ops : List RegOp) : ∀ st : DState, RegInv st →
    (∀ k n e, RegOp.add k n e ∈ ops →
      slotLookup st k n = Option.none ∧ uidLookup st e.uid = Option.none) →
    (addKeys ops).Nodup → (addUids ops).Nodup →
    RegInv (runOps st ops) := by
  induction ops with
  | nil => intro st hI _ _ _; exact hI
  | cons op rest ih =>
    intro st hI hfresh hkeys huids
    cases op with
    | add k n e =>
      have hf := hfresh k n e (List.mem_cons_self _ _)
      have hI2 := regInv_add st k n e hI hf.1 hf.2
      have hknotin : (k, n) ∉ addKeys rest := (List.nodup_cons.mp hkeys).1
      have hkeys2 : (addKeys rest).Nodup := (List.nodup_cons.mp hkeys).2
      have hunotin : e.uid ∉ addUids rest := (List.nodup_cons.mp huids).1
      have huids2 : (addUids rest).Nodup := (List.nodup_cons.mp huids).2
      refine ih (applyOp st (RegOp.add k n e)) hI2 ?_ hkeys2 huids2
      intro k' n' e' hmem
      have hkmem : (k', n') ∈ addKeys rest := mem_addKeys hmem
      have humem : e'.uid ∈ addUids rest := mem_addUids hmem
      have hkne : ¬ (k' = k ∧ n' = n) := by
        intro hh
        apply hknotin
        have hpe : (k, n) = (k', n') := by rw [hh.1, hh.2]
        rw [hpe]
        exact hkmem
      have hune : ¬ e'.uid = e.uid := by
        intro hh
        apply hunotin
        rw [hh.symm]
        exact humem
      constructor
      · cases hx : slotLookup (applyOp st (RegOp.add k n e)) k' n' with
        | none => rfl
        | some x =>
          exfalso
          rcases add_slot_mono st k n (some e) k' n' x hx with hab | hst
          · exact hkne hab
          · have h2 := (hfresh k' n' e' (List.mem_cons_of_mem _ hmem)).1
            rw [h2] at hst
            exact Option.noConfusion hst
      · cases hx : uidLookup (applyOp st (RegOp.add k n e)) e'.uid with
        | none => rfl
        | some x =>
          exfalso
          rcases add_uid_mono st k n (some e) e'.uid x hx with ⟨e2, he2, hue⟩ | hst
          · injection he2 with he2
            subst he2
            exact hune hue
          · have h2 := (hfresh k' n' e' (List.mem_cons_of_mem _ hmem)).2
            rw [h2] at hst
            exact Option.noConfusion hst
    | remove k n =>
      have hI2 := regInv_remove st k n hI
      refine ih (applyOp st (RegOp.remove k n)) hI2 ?_ hkeys huids
      intro k' n' e' hmem
      have hf := hfresh k' n' e' (List.mem_cons_of_mem _ hmem)
      constructor
      · cases hx : slotLookup (applyOp st (RegOp.remove k n)) k' n' with
        | none => rfl
        | some x =>
          exfalso
          have h2 := remove_slot_mono st k n k' n' x hx
          rw [hf.1] at h2
          exact Option.noConfusion h2
      · cases hx : uidLookup (applyOp st (RegOp.remove k n)) e'.uid with
        | none => rfl
        | some x =>
          exfalso
          have h2 := remove_uid_mono st k n e'.uid x hx
          rw [hf.2] at h2
          exact Option.noConfusion h2

theorem regInv_bijective {st : DState} (hI : RegInv st) : IndexBijective st := by
  constructor
  · intro u e hu
    obtain ⟨hue, k, n, hkn⟩ := hI.uid_slot u e hu
    refine ⟨(k, n), hkn, ?_⟩
    rintro ⟨a, b⟩ hab
    have h2 := hI.slot_unique a b k n e hab hkn
    rw [Prod.ext_iff]
    exact ⟨h2.1, h2.2⟩
  · intro k n e hkn
    have hu := hI.slot_uid k n e hkn
    refine ⟨e.uid, hu, ?_⟩
    intro u2 hu2
    exact (hI.uid_slot u2 e hu2).1

/-! Helper lemmas for the servlet controller. -/

theorem portOp_preserves_controller (s : RegistryServlet) (op : PortOp)
    (h : s.controller = !s.ports.isEmpty) :
    (applyPortOp s op).controller = !(applyPortOp s op).ports.isEmpty := by
  cases op with
  | boundTo p =>
    show (bound_to s p).controller = !(bound_to s p).ports.isEmpty
    unfold bound_to
    by_cases hp : p ∈ s.ports
    · rw [if_pos hp]; exact h
    · rw [if_neg hp]; simp
  | unboundFrom p =>
    show (unbound_from s p).controller = !(unbound_from s p).ports.isEmpty
    unfold unbound_from
    by_cases hp : p ∈ s.ports
    · rw [if_pos hp]
      cases hre : (listRemove s.ports p).isEmpty with
      | true => simp [hre]
      | false =>
        simp only [hre, Bool.false_eq_true, if_false, Bool.not_false]
        have hne : s.ports.isEmpty = false := by
          cases hps : s.ports with
          | nil => rw [hps] at hp; cases hp
          | cons a l => rfl
        rw [h, hne]
        rfl
    · rw [if_neg hp]; exact h

theorem runPortOps_controller (ops : List PortOp) : ∀ s : RegistryServlet,
    s.controller = !s.ports.isEmpty →
    (runPortOps s ops).controller = !(runPortOps s ops).ports.isEmpty := by
  induction ops with
  | nil => intro s h; exact h
  | cons op rest ih => intro s h; exact ih _ (portOp_preserves_controller s op h)

/-! The claims. -/

/-- C1: for a registered endpoint whose instance exposes a member named
`method`, `dispatch` returns exactly the outcome of invoking that member
with `params` as positional arguments — the result verbatim, or the very
exception the invocation raises, neither wrapped nor swallowed. -/
theorem C1_dispatch_transparent (st : DState) (kind name method : String)
    (params : List Val) (ep : Endpoint) (m : Member)
    (hep : slotLookup st kind name = some ep) (hm : ep.inst method = some m) :
    dispatch st kind name method params = callMember m params := by
  unfold dispatch
  simp only [hep, hm]

/-- Witness for C1, at the spec's adder scenario: the dispatched call is
exactly the member invocation, which yields `5` on `[2, 3]`. -/
theorem C1_witness :
    slotLookup stC1 "http" "calc" = some epC1 ∧
    epC1.inst "add" = some mAdd ∧
    dispatch stC1 "http" "calc" "add" [Val.int 2, Val.int 3] =
      callMember mAdd [Val.int 2, Val.int 3] ∧
    callMember mAdd [Val.int 2, Val.int 3] = Except.ok (Val.int 5) :=
  ⟨rfl, rfl,
   C1_dispatch_transparent stC1 "http" "calc" "add" [Val.int 2, Val.int 3] epC1 mAdd rfl rfl,
   rfl⟩

/-- C2 counterexample: `epC2` is registered and its instance has no
callable member named `m` (only the non-callable attribute `5`), yet
`dispatch` does not fail with the UnknownMethod error — it fails with the
`TypeError` of calling the non-callable attribute. -/
theorem C2_counterexample :
    slotLookup stC2 "k" "n" = some epC2 ∧
    (∀ f, epC2.inst "m" ≠ some (Member.callable f)) ∧
    dispatch stC2 "k" "n" "m" [] =
      Except.error (PyExc.typeError "object is not callable") ∧
    dispatch stC2 "k" "n" "m" [] ≠
      Except.error (PyExc.remoteServiceError "Unknown method m") := by
  refine ⟨rfl, ?_, rfl, ?_⟩
  · intro f h
    exact Member.noConfusion (Option.some.inj h)
  · intro h
    have h2 : Except.error (PyExc.typeError "object is not callable") =
        (Except.error (PyExc.remoteServiceError "Unknown method m") :
          Except PyExc Val) := h
    exact PyExc.noConfusion (Except.error.inj h2)

/-- C2 amended: `dispatch` fails with the UnknownEndpoint error when
nothing is registered under `(kind, name)`; when the endpoint exists it
fails with the UnknownMethod error exactly when `getattr` finds no member
of that name at all (callable or not); when a member exists the outcome
is exactly the member invocation's, so `dispatch` itself introduces no
further error case (a non-callable member fails with the invocation's
`TypeError`, not with UnknownMethod). -/
theorem C2_amended (st : DState) (kind name method : String) (params : List Val) :
    (slotLookup st kind name = Option.none →
      dispatch st kind name method params =
        Except.error (PyExc.remoteServiceError ("Unknown endpoint: " ++ name))) ∧
    (∀ ep, slotLookup st kind name = some ep → ep.inst method = Option.none →
      dispatch st kind name method params =
        Except.error (PyExc.remoteServiceError ("Unknown method " ++ method))) ∧
    (∀ ep m, slotLookup st kind name = some ep → ep.inst method = some m →
      dispatch st kind name method params = callMember m params) := by
  refine ⟨?_, ?_, ?_⟩
  · intro h; unfold dispatch; simp only [h]
  · intro ep h hm; unfold dispatch; simp only [h, hm]
  · intro ep m h hm; unfold dispatch; simp only [h, hm]

/-- Witness for C2 amended: the three branches at concrete inputs. -/
theorem C2_amended_witness :
    dispatch stC2 "k" "nope" "m" [] =
      Except.error (PyExc.remoteServiceError "Unknown endpoint: nope") ∧
    dispatch stC2 "k" "n" "absent" [] =
      Except.error (PyExc.remoteServiceError "Unknown method absent") ∧
    dispatch stC2 "k" "n" "m" [] = callMember (Member.attr (Val.int 5)) [] :=
  ⟨(C2_amended stC2 "k" "nope" "m" []).1 rfl,
   (C2_amended stC2 "k" "n" "absent" []).2.1 epC2 rfl rfl,
   (C2_amended stC2 "k" "n" "m" []).2.2 epC2 (Member.attr (Val.int 5)) rfl rfl⟩

/-- C6: adding under an occupied `(kind, name)` fails with the
AlreadyExists `KeyError` and the registry still reports the originally
stored endpoint; removing an unknown `(kind, name)` fails with a
`KeyError` and has no effect on the index set. -/
theorem C6_conflicts_leave_registry_unchanged :
    (∀ st kind name e0 e2, ¬ kind = "" → ¬ name = "" →
      slotLookup st kind name = some e0 →
      add_endpoint st kind name (some e2) =
        (st, [], Except.error (PyExc.keyError ("Already known end point: " ++ name))) ∧
      slotLookup (add_endpoint st kind name (some e2)).1 kind name = some e0) ∧
    (∀ st kind name, slotLookup st kind name = Option.none →
      (remove_endpoint st kind name).1 = st ∧
      (remove_endpoint st kind name).2.1 = [] ∧
      isKeyError (remove_endpoint st kind name).2.2 = true) := by
  constructor
  · intro st kind name e0 e2 hk hn hmem
    have hp := add_dup_parts st kind name e2 e0 hk hn hmem
    refine ⟨hp, ?_⟩
    rw [hp]
    exact hmem
  · intro st kind name h
    exact remove_notfound_parts st kind name h

/-- Witness for C6: duplicate add and unknown remove on a concrete
one-endpoint registry. -/
theorem C6_witness :
    (add_endpoint stC6 "k" "n" (some e2C6) =
      (stC6, [], Except.error (PyExc.keyError "Already known end point: n")) ∧
     slotLookup (add_endpoint stC6 "k" "n" (some e2C6)).1 "k" "n" = some e0C6) ∧
    ((remove_endpoint stC6 "k" "missing").1 = stC6 ∧
     (remove_endpoint stC6 "k" "missing").2.1 = [] ∧
     isKeyError (remove_endpoint stC6 "k" "missing").2.2 = true) :=
  ⟨C6_conflicts_leave_registry_unchanged.1 stC6 "k" "n" e0C6 e2C6
      (by decide) (by decide) rfl,
   C6_conflicts_leave_registry_unchanged.2 stC6 "k" "missing" rfl⟩

/-- C9: after every sequence of `bound_to` / `unbound_from` calls with
arbitrary ports, the servlet's `_controller` flag is true exactly when
its bound-port list is non-empty (so it flips exactly on the transitions
between empty and non-empty). -/
theorem C9_controller_iff_ports (ops : List PortOp) :
    (runPortOps servletInit ops).controller = true ↔
      (runPortOps servletInit ops).ports ≠ [] := by
  have h := runPortOps_controller ops servletInit rfl
  rw [h]
  cases h2 : (runPortOps servletInit ops).ports with
  | nil => simp
  | cons a l => simp

/-- C10: `ServiceEvent.__init__` stores an empty mapping in place of a
previous-properties argument that is neither `None` nor a mapping, and
stores `None` or a mapping unchanged; `get_previous_properties` returns
the stored value. -/
theorem C10_previous_properties_coercion {ρ α : Type} (kind : Int) (reference : ρ) :
    (∀ v : α,
      get_previous_properties (serviceEventInit kind reference (PyPrev.pyother v)) =
        PyPrev.pydict []) ∧
    get_previous_properties (serviceEventInit kind reference (PyPrev.pynone : PyPrev α)) =
      PyPrev.pynone ∧
    (∀ d : List (String × α),
      get_previous_properties (serviceEventInit kind reference (PyPrev.pydict d)) =
        PyPrev.pydict d) :=
  ⟨fun _ => rfl, rfl, fun _ => rfl⟩

/-- C3 counterexample: two adds with pairwise-distinct `(kind, name)`
pairs but a shared uid: `e1C3` still occupies slot `(k1, n1)` while the
uid index holds only `e2C3` under the shared uid, so the indexes are not
bijective views of one live set. -/
theorem C3_counterexample :
    (addKeys opsC3cex).Nodup ∧
    ¬ (addUids opsC3cex).Nodup ∧
    ¬ IndexBijective (runOps initState opsC3cex) := by
  refine ⟨by decide, by decide, ?_⟩
  intro h
  obtain ⟨u, hu, -⟩ := h.2 "k1" "n1" e1C3 (by rfl)
  have hred : uidLookup (runOps initState opsC3cex) u =
      if ("u" : String) = u then some e2C3 else Option.none := rfl
  rw [hred] at hu
  by_cases hcase : ("u" : String) = u
  · rw [if_pos hcase] at hu
    injection hu with hu2
    exact (by decide : ¬ ("k2" : String) = "k1") (congrArg Endpoint.kind hu2)
  · rw [if_neg hcase] at hu
    exact Option.noConfusion hu

/-- C3 amended: after every sequence of add/remove operations whose adds
use pairwise-distinct `(kind, name)` pairs and pairwise-distinct endpoint
uids, the uid index and the kind-to-name index are bijective views of the
same live endpoint set. -/
theorem C3_amended (ops : List RegOp)
    (hkeys : (addKeys ops).Nodup) (huids : (addUids ops).Nodup) :
    IndexBijective (runOps initState ops) :=
  regInv_bijective (runOps_inv ops initState regInv_init
    (fun _ _ _ _ => ⟨rfl, rfl⟩) hkeys huids)

/-- Witness for C3 amended: a concrete add/add/remove sequence with
distinct keys and uids yields bijective indexes. -/
theorem C3_witness :
    IndexBijective (runOps initState
      [RegOp.add "k1" "n1" (bareEndpoint 33 "ua" "k1" "n1"),
       RegOp.add "k2" "n2" (bareEndpoint 34 "ub" "k2" "n2"),
       RegOp.remove "k1" "n1"]) :=
  C3_amended
    [RegOp.add "k1" "n1" (bareEndpoint 33 "ua" "k1" "n1"),
     RegOp.add "k2" "n2" (bareEndpoint 34 "ub" "k2" "n2"),
     RegOp.remove "k1" "n1"]
    (by decide) (by decide)

/-- C4 counterexample: on a successful `add_endpoint` with a raising
first listener, the endpoint is stored, but the exception escapes to the
caller and the second listener is never notified — nothing is caught. -/
theorem C4_counterexample :
    (add_endpoint stC4 "k" "n" (some eC4)).2.2 =
      Except.error (PyExc.valueError "boom") ∧
    (add_endpoint stC4 "k" "n" (some eC4)).2.1 = [(1, Notif.added eC4)] ∧
    slotLookup (add_endpoint stC4 "k" "n" (some eC4)).1 "k" "n" = some eC4 :=
  ⟨rfl, rfl, rfl⟩

/-- C4 amended: for each mutator whose registry mutation succeeds, the
mutation persists, every listener up to and including the first raiser is
invoked, the listeners after the first raiser receive nothing, and the
first raiser's exception propagates to the caller of the mutator (only
the bind-time replay catches listener failures). -/
theorem C4_amended :
    (∀ st kind name e ls1 l ls2 ex, ¬ kind = "" → ¬ name = "" →
      slotLookup st kind name = Option.none →
      st.listeners = ls1 ++ l :: ls2 →
      (∀ x ∈ ls1, x.excOf (Notif.added e) = Option.none) →
      l.excOf (Notif.added e) = some ex →
      slotLookup (add_endpoint st kind name (some e)).1 kind name = some e ∧
      uidLookup (add_endpoint st kind name (some e)).1 e.uid = some e ∧
      (add_endpoint st kind name (some e)).2.1 =
        ls1.map (fun x => (x.id, Notif.added e)) ++ [(l.id, Notif.added e)] ∧
      (add_endpoint st kind name (some e)).2.2 = Except.error ex) ∧
    (∀ st kind name e stored props ls1 l ls2 ex, ¬ kind = "" → ¬ name = "" →
      slotLookup st kind name = some stored → endpointNe e stored = false →
      st.listeners = ls1 ++ l :: ls2 →
      (∀ x ∈ ls1, x.excOf (Notif.updated e props) = Option.none) →
      l.excOf (Notif.updated e props) = some ex →
      slotLookup (update_endpoint st kind name (some e) props).1 kind name = some stored ∧
      (update_endpoint st kind name (some e) props).2.1 =
        ls1.map (fun x => (x.id, Notif.updated e props)) ++ [(l.id, Notif.updated e props)] ∧
      (update_endpoint st kind name (some e) props).2.2 = Except.error ex) ∧
    (∀ st kind name e0 ls1 l ls2 ex,
      slotLookup st kind name = some e0 → uidLookup st e0.uid = some e0 →
      st.listeners = ls1 ++ l :: ls2 →
      (∀ x ∈ ls1, x.excOf (Notif.removed e0) = Option.none) →
      l.excOf (Notif.removed e0) = some ex →
      slotLookup (remove_endpoint st kind name).1 kind name = Option.none ∧
      uidLookup (remove_endpoint st kind name).1 e0.uid = Option.none ∧
      (remove_endpoint st kind name).2.1 =
        ls1.map (fun x => (x.id, Notif.removed e0)) ++ [(l.id, Notif.removed e0)] ∧
      (remove_endpoint st kind name).2.2 = Except.error ex) := by
  refine ⟨?_, ?_, ?_⟩
  · intro st kind name e ls1 l ls2 ex hk hn hfresh hlist h1 h2
    have hparts := add_success_parts st kind name e hk hn hfresh
    have hloop : notifyLoop st.listeners (Notif.added e) =
        (ls1.map (fun x => (x.id, Notif.added e)) ++ [(l.id, Notif.added e)], some ex) := by
      rw [hlist]
      exact notifyLoop_raise ls1 l ls2 (Notif.added e) ex h1 h2
    refine ⟨?_, ?_, ?_, ?_⟩
    · rw [add_slot_char st kind name e hk hn hfresh kind name, if_pos ⟨rfl, rfl⟩]
    · rw [add_uid_char st kind name e hk hn hfresh e.uid, if_pos rfl]
    · rw [hparts, hloop]
    · rw [hparts, hloop]
      rfl
  · intro st kind name e stored props ls1 l ls2 ex hk hn hstored hne hlist h1 h2
    have hparts := update_success_parts st kind name e stored props hk hn hstored hne
    have hloop : notifyLoop st.listeners (Notif.updated e props) =
        (ls1.map (fun x => (x.id, Notif.updated e props)) ++
          [(l.id, Notif.updated e props)], some ex) := by
      rw [hlist]
      exact notifyLoop_raise ls1 l ls2 (Notif.updated e props) ex h1 h2
    refine ⟨hparts.2.2.2, ?_, ?_⟩
    · rw [hparts.1, hloop]
    · rw [hparts.2.1, hloop]
      rfl
  · intro st kind name e0 ls1 l ls2 ex hslot huid hlist h1 h2
    obtain ⟨km, hkm, hname⟩ := slotLookup_some hslot
    have hparts := remove_success_parts st kind name km e0 e0 hkm hname huid
    have hloop : notifyLoop st.listeners (Notif.removed e0) =
        (ls1.map (fun x => (x.id, Notif.removed e0)) ++ [(l.id, Notif.removed e0)],
          some ex) := by
      rw [hlist]
      exact notifyLoop_raise ls1 l ls2 (Notif.removed e0) ex h1 h2
    refine ⟨?_, ?_, ?_, ?_⟩
    · rw [remove_slot_char st kind name km e0 e0 hkm hname huid kind name,
        if_pos ⟨rfl, rfl⟩]
    · rw [remove_uid_char st kind name km e0 e0 hkm hname huid e0.uid, if_pos rfl]
    · rw [hparts, hloop]
    · rw [hparts, hloop]
      rfl

/-- Witness for C4 amended: the three mutators on a concrete registry
with a single raising listener. -/
theorem C4_amended_witness :
    (slotLookup (add_endpoint stC4w "k" "n2" (some eC4b)).1 "k" "n2" = some eC4b ∧
     uidLookup (add_endpoint stC4w "k" "n2" (some eC4b)).1 "u41" = some eC4b ∧
     (add_endpoint stC4w "k" "n2" (some eC4b)).2.1 = [(1, Notif.added eC4b)] ∧
     (add_endpoint stC4w "k" "n2" (some eC4b)).2.2 =
       Except.error (PyExc.valueError "boom")) ∧
    (slotLookup (update_endpoint stC4w "k" "n" (some epC4w) propsC7).1 "k" "n" =
       some epC4w ∧
     (update_endpoint stC4w "k" "n" (some epC4w) propsC7).2.1 =
       [(1, Notif.updated epC4w propsC7)] ∧
     (update_endpoint stC4w "k" "n" (some epC4w) propsC7).2.2 =
       Except.error (PyExc.valueError "boom")) ∧
    (slotLookup (remove_endpoint stC4w "k" "n").1 "k" "n" = Option.none ∧
     uidLookup (remove_endpoint stC4w "k" "n").1 "u40" = Option.none ∧
     (remove_endpoint stC4w "k" "n").2.1 = [(1, Notif.removed epC4w)] ∧
     (remove_endpoint stC4w "k" "n").2.2 = Except.error (PyExc.valueError "boom")) :=
  ⟨C4_amended.1 stC4w "k" "n2" eC4b [] lraise [] (PyExc.valueError "boom")
      (by decide) (by decide) rfl rfl (fun x hx => absurd hx (List.not_mem_nil x)) rfl,
   C4_amended.2.1 stC4w "k" "n" epC4w epC4w propsC7 [] lraise [] (PyExc.valueError "boom")
      (by decide) (by decide) rfl rfl rfl (fun x hx => absurd hx (List.not_mem_nil x)) rfl,
   C4_amended.2.2 stC4w "k" "n" epC4w [] lraise [] (PyExc.valueError "boom")
      rfl rfl rfl (fun x hx => absurd hx (List.not_mem_nil x)) rfl⟩

/-- C5 counterexample: two endpoints are live, but a listener whose
callback raises during its attach-time replay receives only one
`endpoint_added` call — the caught exception skips the rest of the
replay. -/
theorem C5_counterexample :
    (stC5.endpoints.map Prod.snd).length = 2 ∧
    (bind stC5 lraise true).2.length = 1 :=
  ⟨rfl, rfl⟩

/-- C5 amended: a listener attaching while N endpoints are live, none of
whose replayed callbacks raises, is synchronously replayed exactly one
`endpoint_added` per live endpoint — N calls, no duplicates and no
omissions — before being part of the listener list used by subsequent
notifications; a raising replay callback is caught and aborts the
remaining replay. -/
theorem C5_amended (st : DState) (l : Listener)
    (hok : ∀ e ∈ st.endpoints.map Prod.snd, l.excOf (Notif.added e) = Option.none) :
    (bind st l true).2 =
      (st.endpoints.map Prod.snd).map (fun e => (l.id, Notif.added e)) ∧
    (bind st l true).2.length = st.endpoints.length ∧
    (bind st l true).1.listeners = st.listeners ++ [l] := by
  have h1 : (bind st l true).2 = replay_loop l (st.endpoints.map Prod.snd) := rfl
  refine ⟨?_, ?_, rfl⟩
  · rw [h1, replay_loop_ok l _ hok]
  · rw [h1, replay_loop_ok l _ hok]
    simp

/-- Witness for C5 amended: a well-behaved listener binding to the
two-endpoint dispatcher is replayed exactly the two adds, in index
order. -/
theorem C5_witness :
    (bind stC5 lok true).2 = [(2, Notif.added e1C5), (2, Notif.added e2C5)] ∧
    (bind stC5 lok true).2.length = 2 ∧
    (bind stC5 lok true).1.listeners = [lok] :=
  ⟨(C5_amended stC5 lok (fun _ _ => rfl)).1,
   (C5_amended stC5 lok (fun _ _ => rfl)).2.1,
   (C5_amended stC5 lok (fun _ _ => rfl)).2.2⟩

/-- C7 counterexample: a successful `update_endpoint` returns `None` (the
unit value), not the endpoint together with the superseded-properties
snapshot; that pair is only delivered to the listeners. -/
theorem C7_counterexample :
    (update_endpoint stC7 "k" "n" (some epC7) propsC7).2.2 = Except.ok () ∧
    (update_endpoint stC7 "k" "n" (some epC7) propsC7).2.1 =
      [(2, Notif.updated epC7 propsC7)] :=
  ⟨rfl, rfl⟩

/-- C7 amended: `update_endpoint` fails with the NotFound `KeyError` when
`(kind, name)` is absent, fails with the Mismatch `ValueError` when the
stored endpoint's identity differs from the supplied one, and on success
returns `None` while delivering the endpoint together with the supplied
superseded-properties snapshot to every listener. -/
theorem C7_amended :
    (∀ st kind name e props, ¬ kind = "" → ¬ name = "" →
      slotLookup st kind name = Option.none →
      (update_endpoint st kind name (some e) props).2.1 = [] ∧
      (update_endpoint st kind name (some e) props).2.2 =
        Except.error (PyExc.keyError ("Unknown known end point: " ++ name))) ∧
    (∀ st kind name e stored props, ¬ kind = "" → ¬ name = "" →
      slotLookup st kind name = some stored → endpointNe e stored = true →
      (update_endpoint st kind name (some e) props).2.1 = [] ∧
      (update_endpoint st kind name (some e) props).2.2 =
        Except.error (PyExc.valueError ("Not the right end point: " ++ name))) ∧
    (∀ st kind name e stored props, ¬ kind = "" → ¬ name = "" →
      slotLookup st kind name = some stored → endpointNe e stored = false →
      (∀ x ∈ st.listeners, x.excOf (Notif.updated e props) = Option.none) →
      (update_endpoint st kind name (some e) props).2.1 =
        st.listeners.map (fun x => (x.id, Notif.updated e props)) ∧
      (update_endpoint st kind name (some e) props).2.2 = Except.ok ()) := by
  refine ⟨?_, ?_, ?_⟩
  · intro st kind name e props hk hn h
    exact update_notfound_parts st kind name e props hk hn h
  · intro st kind name e stored props hk hn h hne
    exact update_mismatch_parts st kind name e stored props hk hn h hne
  · intro st kind name e stored props hk hn h hne hok
    have hp := update_success_parts st kind name e stored props hk hn h hne
    rw [hp.1, hp.2.1, notifyLoop_ok st.listeners (Notif.updated e props) hok]
    exact ⟨rfl, rfl⟩

/-- Witness for C7 amended: the three branches on a concrete registry. -/
theorem C7_amended_witness :
    ((update_endpoint stC7 "k" "absent" (some epC7) propsC7).2.1 = [] ∧
     (update_endpoint stC7 "k" "absent" (some epC7) propsC7).2.2 =
       Except.error (PyExc.keyError "Unknown known end point: absent")) ∧
    ((update_endpoint stC7 "k" "n" (some epC7b) propsC7).2.1 = [] ∧
     (update_endpoint stC7 "k" "n" (some epC7b) propsC7).2.2 =
       Except.error (PyExc.valueError "Not the right end point: n")) ∧
    ((update_endpoint stC7 "k" "n" (some epC7) propsC7).2.1 =
       [(2, Notif.updated epC7 propsC7)] ∧
     (update_endpoint stC7 "k" "n" (some epC7) propsC7).2.2 = Except.ok ()) :=
  ⟨C7_amended.1 stC7 "k" "absent" epC7 propsC7 (by decide) (by decide) rfl,
   C7_amended.2.1 stC7 "k" "n" epC7b epC7 propsC7 (by decide) (by decide) rfl rfl,
   C7_amended.2.2 stC7 "k" "n" epC7 epC7 propsC7 (by decide) (by decide) rfl rfl
     (by
       intro x hx
       cases hx with
       | head => rfl
       | tail _ h2 => cases h2)⟩

/-- C8 counterexample: with endpoints named `n` under the two kinds `k1`
and `k2`, the name-only query returns both of them — two elements, while
the claim promises 0 or 1 whenever the name filter is given. -/
theorem C8_counterexample :
    get_endpoints stC8 Option.none (some "n") = [e1C8, e2C8] ∧
    (get_endpoints stC8 Option.none (some "n")).length = 2 :=
  ⟨rfl, rfl⟩

/-- C8 amended: `get_endpoints` returns all registered endpoints without
filters, all endpoints of a kind with only the kind filter (empty for an
unknown kind), a list of 0 or 1 element when BOTH filters are given, and,
with only the name filter, one entry per kind under which the name is
registered. -/
theorem optTruthy_some {s : String} (h : ¬ s = "") : optTruthy (some s) = true := by
  show (if s = "" then false else true) = true
  rw [if_neg h]

/-- C8 amended: `get_endpoints` returns all registered endpoints without
filters, all endpoints of a kind with only the kind filter (empty for an
unknown kind), a list of 0 or 1 element when BOTH filters are given, and,
with only the name filter, one entry per kind under which the name is
registered. -/
theorem C8_amended (st : DState) :
    get_endpoints st Option.none Option.none = liveEndpoints st ∧
    (∀ k, ¬ k = "" → get_endpoints st (some k) Option.none =
      (match dictGet st.kindEndpoints k with
       | some km => km.map Prod.snd
       | Option.none => [])) ∧
    (∀ k n, ¬ k = "" → ¬ n = "" → get_endpoints st (some k) (some n) =
      (match slotLookup st k n with
       | some e => [e]
       | Option.none => [])) ∧
    (∀ k n, ¬ k = "" → ¬ n = "" → (get_endpoints st (some k) (some n)).length ≤ 1) ∧
    (∀ n, ¬ n = "" → get_endpoints st Option.none (some n) =
      st.kindEndpoints.filterMap (fun p => dictGet p.2 n)) ∧
    (∀ k, ¬ k = "" → dictGet st.kindEndpoints k = Option.none →
      get_endpoints st (some k) Option.none = []) := by
  have hkmatch : ∀ (k : String), ¬ k = "" → ∀ nf : Option String,
      get_endpoints st (some k) nf =
        (match dictGet st.kindEndpoints k with
         | some km =>
             if km.isEmpty then []
             else if optTruthy nf then
               (match dictGet km (nf.getD "") with
                | some e => [e]
                | Option.none => [])
             else km.map Prod.snd
         | Option.none => []) := by
    intro k hk nf
    unfold get_endpoints
    rw [optTruthy_some hk]
    simp only [Option.getD_some, if_true]
    cases hkm : dictGet st.kindEndpoints k with
    | none => rfl
    | some km =>
      cases hkm2 : km.isEmpty with
      | true => simp only [hkm2, if_true]
      | false =>
        simp only [hkm2, Bool.false_eq_true, if_false]
        cases hnf : optTruthy nf with
        | true =>
          simp only [hnf, if_true, List.filterMap]
          cases dictGet km (nf.getD "") <;> rfl
        | false =>
          simp only [hnf, Bool.false_eq_true, if_false]
          simp [List.flatten]
  refine ⟨?_, ?_, ?_, ?_, ?_, ?_⟩
  · unfold get_endpoints liveEndpoints
    simp [optTruthy, List.map_map]
    rfl
  · intro k hk
    rw [hkmatch k hk Option.none]
    cases hkm : dictGet st.kindEndpoints k with
    | none => rfl
    | some km =>
      cases km with
      | nil => rfl
      | cons p rest => rfl
  · intro k n hk hn
    rw [hkmatch k hk (some n)]
    cases hkm : dictGet st.kindEndpoints k with
    | none =>
      have hs : slotLookup st k n = Option.none := by
        simp [slotLookup, hkm, dictGet]
      rw [hs]
    | some km =>
      have hs : slotLookup st k n = dictGet km n := by
        simp [slotLookup, hkm]
      rw [hs]
      cases km with
      | nil => rfl
      | cons p rest =>
        simp only [List.isEmpty_cons, Bool.false_eq_true, if_false,
          optTruthy_some hn, if_true, Option.getD_some]
  · intro k n hk hn
    rw [hkmatch k hk (some n)]
    cases hkm : dictGet st.kindEndpoints k with
    | none => simp
    | some km =>
      cases hkm2 : km.isEmpty with
      | true => simp [hkm2]
      | false =>
        simp only [hkm2, Bool.false_eq_true, if_false, optTruthy_some hn, if_true]
        cases dictGet km ((some n).getD "") <;> simp
  · intro n hn
    unfold get_endpoints
    simp only [show optTruthy (Option.none : Option String) = false from rfl,
      Bool.false_eq_true, if_false, optTruthy_some hn, if_true, Option.getD_some]
    rw [List.filterMap_map]
    rfl
  · intro k hk hkm
    rw [hkmatch k hk Option.none, hkm]

/-- Witness for C8 amended: on the concrete two-kind registry, the
two-filter query returns exactly the single named endpoint, and an
unknown kind yields the empty list. -/
theorem C8_amended_witness :
    get_endpoints stC8 (some "k1") (some "n") = [e1C8] ∧
    (get_endpoints stC8 (some "k1") (some "n")).length ≤ 1 ∧
    get_endpoints stC8 (some "bogus") Option.none = [] := by
  have h := C8_amended stC8
  refine ⟨?_, h.2.2.2.1 "k1" "n" (by decide) (by decide),
    h.2.2.2.2.2 "bogus" (by decide) rfl⟩
  have h3 := h.2.2.1 "k1" "n" (by decide) (by decide)
  rw [h3]
  rfl
